import Mathlib

/-!
Verification development for the discord-scoutid-linked-role server.

The JavaScript sources are shallowly embedded: JS values appearing in
metadata objects become `JVal`, JS objects become association lists
(`JSObj`), the Redis-backed credential store (`src/storage.js`) becomes a
`Store` record of partial maps, and every outbound HTTP call is an oracle
field of an `Env` record (attempt-indexed where the call site is wrapped in
`retryWithBackoff`).  Each server handler / helper is translated statement
by statement from the source; besides its result it returns the ordered
list of externally visible events (`Ev`): provider calls and store writes.
A thrown JS exception is an `Except.error`; a `TypeError` raised by reading
a property of `null` carries no `status` field, matching the code's
`error.status === 429` checks.
-/

namespace LinkedRole

/-- JS runtime values used in the data objects handled by the server. -/
inductive JVal where
  | jundefined
  | jnull
  | jbool (b : Bool)
  | jnum (n : Int)
  | jstr (s : String)
deriving DecidableEq, Repr

/-- A JS object, modelled as an association list of its own properties. -/
abbrev JSObj := List (String × JVal)

/-- JS property read `o[k]`: a missing property reads as `undefined`. -/
def jsGet (o : JSObj) (k : String) : JVal :=
  (List.lookup k o).getD .jundefined

/-- JS truthiness of a value. -/
def truthy : JVal → Bool
  | .jundefined => false
  | .jnull => false
  | .jbool b => b
  | .jnum n => decide (n ≠ 0)
  | .jstr s => decide (s ≠ "")

/-- JS `a || b`. -/
def jsOr (a b : JVal) : JVal := if truthy a then a else b

/-- JS loose equality against null (`x == null`): true for null and undefined. -/
def isNullish : JVal → Bool
  | .jundefined => true
  | .jnull => true
  | _ => false

/-- The keys of a JS object that survive `JSON.stringify` (properties whose
value is `undefined` are dropped from the serialized form). -/
def jsonKeys (o : JSObj) : List String :=
  (o.filter (fun p => p.2 ≠ .jundefined)).map (fun p => p.1)

/-- A JS OAuth token object.  The same duck-typed shape serves the Discord
token sets `{access_token, refresh_token, expires_at}` stored by
`storeDiscordTokens`, the raw token-endpoint responses (which carry
`expires_in`), and the ScoutID token sets stored by `storeScoutIDTokens`
(which add `discord_user_id` and `code_verifier`); absent fields default. -/
structure JSTokens where
  access_token : String := ""
  refresh_token : String := ""
  expires_at : Nat := 0
  expires_in : Nat := 0
  discord_user_id : String := ""
  code_verifier : String := ""
deriving DecidableEq, Repr

/-- The LinkState persisted under `state-<token>` by `storeStateData`. -/
structure LinkState where
  discordUserId : String
  codeVerifier : String
deriving DecidableEq, Repr

/-- A thrown JS error; `status` is the `error.status` property set by the
Discord client wrappers (absent on TypeErrors and non-HTTP failures). -/
structure JSErr where
  status : Option Nat := none
deriving DecidableEq, Repr

/-- Body of a provider token-endpoint JSON response. -/
structure OidcTokenResp where
  access_token : String
  refresh_token : String
  expires_in : Nat
deriving DecidableEq, Repr

/-- Body of the ScoutID `userinfo` JSON response (fields read by the code). -/
structure UserinfoResp where
  given_name : String
  family_name : String
  profile : String
  email : String
deriving DecidableEq, Repr

/-- The object returned by `scoutid.getUserData`. -/
structure ScoutIDProfile where
  name : String
  scoutid : String
  email : String
deriving DecidableEq, Repr

/-- A ScoutNet participant record as consumed by `scoutnet.getUserData`:
`cancelled_date` is read with `== null`, `questions` is an optional map
from question id to answer. -/
structure Participant where
  cancelled_date : JVal
  questions : Option JSObj
deriving DecidableEq, Repr

/-- A write against the Redis credential store (`src/storage.js`). -/
inductive WriteOp where
  | putDiscordTokens (userId : String) (t : JSTokens)
  | putStateData (state : String) (d : LinkState)
  | putScoutidTokens (scoutUserId : String) (t : JSTokens)
  | putLink (discordUserId scoutUserId : String)
deriving DecidableEq, Repr

/-- Externally visible events of a handler run: outbound provider calls
and credential-store writes, in program order. -/
inductive Ev where
  | discordTokenExchange (code : String)
  | discordMeFetch
  | discordRefreshCall
  | discordMetadataPush (userId : String) (metadata : JSObj)
  | discordGuildsFetch
  | discordPermsFetch (guildId : String)
  | discordNickPatch (guildId userId nickname : String)
  | scoutidTokenExchange (code codeVerifier : String)
  | scoutidUserFetch
  | scoutnetFetch
  | write (w : WriteOp)
deriving DecidableEq, Repr

/-- Whether an event is a store write. -/
def Ev.isWrite : Ev → Bool
  | .write _ => true
  | _ => false

/-- The store writes contained in an event list, in order. -/
def evWrites (evs : List Ev) : List WriteOp :=
  evs.filterMap (fun e => match e with | .write w => some w | _ => none)

/-- The credential store: the four key families of `src/storage.js`
(`discord-`, `state-`, `scoutid-`, `discord-link-`), each a partial map.
`none` is a missing key (Redis `get` returning `null`). -/
structure Store where
  discordTokens : String → Option JSTokens
  stateData : String → Option LinkState
  scoutidTokens : String → Option JSTokens
  discordLink : String → Option String

/-- The store with every key absent. -/
def Store.empty : Store :=
  { discordTokens := fun _ => none
    stateData := fun _ => none
    scoutidTokens := fun _ => none
    discordLink := fun _ => none }

/-- Apply one store write. -/
def Store.applyWrite (s : Store) : WriteOp → Store
  | .putDiscordTokens u t =>
      { s with discordTokens := fun k => if k = u then some t else s.discordTokens k }
  | .putStateData st d =>
      { s with stateData := fun k => if k = st then some d else s.stateData k }
  | .putScoutidTokens u t =>
      { s with scoutidTokens := fun k => if k = u then some t else s.scoutidTokens k }
  | .putLink d sc =>
      { s with discordLink := fun k => if k = d then some sc else s.discordLink k }

/-- Apply a sequence of store writes, in order. -/
def Store.applyWrites (s : Store) (ws : List WriteOp) : Store :=
  ws.foldl Store.applyWrite s

/-- Oracle for the outside world: configuration, the clock, the random
values drawn during a request, and the outcome of every outbound HTTP
call.  Calls sitting inside `retryWithBackoff` are indexed by the attempt
number so that distinct attempts may observe distinct outcomes. -/
structure Env where
  now : Nat
  scoutidClientId : String
  scoutidRedirectUri : String
  scoutidScopes : Option String
  newState : String
  newNonce : String
  newVerifier : String
  digest : String → List Nat
  discordCodeGrant : Nat → String → Except JSErr OidcTokenResp
  discordMe : Nat → String → Except JSErr String
  discordRefresh : Nat → String → Except JSErr OidcTokenResp
  discordPush : Nat → Except JSErr Unit
  scoutidCodeGrant : String → String → Except JSErr OidcTokenResp
  scoutidUserinfo : String → Except JSErr UserinfoResp
  scoutnetParticipant : String → Except JSErr (Option Participant)
  discordGuilds : Nat → String → Except JSErr (List String)
  discordCanManageNicknames : String → Except JSErr Bool
  discordNickPatchResult : Nat → String → Except JSErr Unit

/-- Result of a `retryWithBackoff` invocation: the value (or propagated
error; `ok none` is the JS `undefined` returned when the loop falls
through, unreachable for `maxRetries = 3`), the events of all attempts,
and the backoff delays slept between attempts (milliseconds). -/
structure RetryRes (α : Type) where
  result : Except JSErr (Option α)
  events : List Ev
  delays : List Nat
deriving Repr

/-- The loop body of `retryWithBackoff`, with the remaining iterations
`maxRetries - attempt` made explicit as structural fuel: zero fuel is the
loop condition `attempt < maxRetries` failing (the JS loop falls through
and returns `undefined`). -/
def retryAux (fn : Nat → Except JSErr α × List Ev) (maxRetries : Nat) :
    Nat → Nat → RetryRes α
  | 0, _ => ⟨.ok none, [], []⟩
  | fuel + 1, attempt =>
      match fn attempt with
      | (.ok v, evs) => ⟨.ok (some v), evs, []⟩
      | (.error e, evs) =>
        if e.status = some 429 ∧ attempt < maxRetries - 1 then
          let r := retryAux fn maxRetries fuel (attempt + 1)
          ⟨r.result, evs ++ r.events, (2 ^ attempt * 1000) :: r.delays⟩
        else ⟨.error e, evs, []⟩

/-- `retryWithBackoff` from `discord.js`: run `fn`; on an error whose
`status` is 429 and with attempts remaining, sleep `2^attempt * 1000` ms
and retry; any other error propagates immediately; at most `maxRetries`
total attempts. -/
def retryWithBackoff (fn : Nat → Except JSErr α × List Ev) (maxRetries attempt : Nat) :
    RetryRes α :=
  retryAux fn maxRetries (maxRetries - attempt) attempt

/-- One attempt of the `fetch` inside `discord.getOAuthTokens`. -/
def codeGrantAttempt (env : Env) (code : String) (attempt : Nat) :
    Except JSErr OidcTokenResp × List Ev :=
  match env.discordCodeGrant attempt code with
  | .ok d => (.ok d, [.discordTokenExchange code])
  | .error e => (.error e, [.discordTokenExchange code])

/-- `discord.getOAuthTokens` (discord.js): POST the authorization code to
the Discord token endpoint, wrapped in `retryWithBackoff`. -/
def getOAuthTokens (env : Env) (code : String) : RetryRes OidcTokenResp :=
  retryWithBackoff (codeGrantAttempt env code) 3 0

/-- One attempt of the `fetch` inside `discord.getUserData`. -/
def meAttempt (env : Env) (accessToken : String) (attempt : Nat) :
    Except JSErr String × List Ev :=
  match env.discordMe attempt accessToken with
  | .ok uid => (.ok uid, [.discordMeFetch])
  | .error e => (.error e, [.discordMeFetch])

/-- `discord.getUserData` (discord.js): GET `oauth2/@me` with the access
token, wrapped in `retryWithBackoff`; the code then reads `meData.user.id`,
which the oracle returns directly. -/
def discordGetUserData (env : Env) (accessToken : String) : RetryRes String :=
  retryWithBackoff (meAttempt env accessToken) 3 0

/-- One attempt of the refresh-grant `fetch` inside `discord.getAccessToken`:
on success the JSON token set is extended with
`expires_at = Date.now() + expires_in * 1000`. -/
def refreshAttempt (env : Env) (refreshToken : String) (attempt : Nat) :
    Except JSErr JSTokens × List Ev :=
  match env.discordRefresh attempt refreshToken with
  | .ok resp =>
      (.ok { access_token := resp.access_token
             refresh_token := resp.refresh_token
             expires_in := resp.expires_in
             expires_at := env.now + resp.expires_in * 1000 },
       [.discordRefreshCall])
  | .error e => (.error e, [.discordRefreshCall])

/-- `discord.getAccessToken` (discord.js): if `Date.now() > tokens.expires_at`
exchange the refresh token (inside `retryWithBackoff`), persist the new
token set with `storage.storeDiscordTokens`, and return the new access
token; otherwise return the stored access token with no calls.  A `none`
argument is a `null` tokens object: reading `tokens.expires_at` throws a
TypeError (no `status`). -/
def getAccessToken (env : Env) (userId : String) (tokens : Option JSTokens) :
    Except JSErr (Option String) × List Ev :=
  match tokens with
  | none => (.error {}, [])
  | some t =>
    if env.now > t.expires_at then
      let r := retryWithBackoff (refreshAttempt env t.refresh_token) 3 0
      match r.result with
      | .ok (some newTokens) =>
          (.ok (some newTokens.access_token),
           r.events ++ [.write (.putDiscordTokens userId newTokens)])
      | .ok none => (.ok none, r.events)
      | .error e => (.error e, r.events)
    else (.ok (some t.access_token), [])

/-- One attempt of the body of `discord.pushMetadata`: obtain an access
token via `getAccessToken`, then PUT the role-connection metadata. -/
def pushAttempt (env : Env) (userId : String) (tokens : Option JSTokens)
    (metadata : JSObj) (attempt : Nat) : Except JSErr Unit × List Ev :=
  match getAccessToken env userId tokens with
  | (.ok _, evs) =>
      match env.discordPush attempt with
      | .ok _ => (.ok (), evs ++ [.discordMetadataPush userId metadata])
      | .error e => (.error e, evs ++ [.discordMetadataPush userId metadata])
  | (.error e, evs) => (.error e, evs)

/-- `discord.pushMetadata` (discord.js): the attempt body above, wrapped
in `retryWithBackoff`. -/
def pushMetadata (env : Env) (userId : String) (tokens : Option JSTokens)
    (metadata : JSObj) : RetryRes Unit :=
  retryWithBackoff (pushAttempt env userId tokens metadata) 3 0

/-- One attempt of the PATCH inside `discord.updateGuildMemberNickname`. -/
def nickPatchAttempt (env : Env) (guildId userId nickname : String) (attempt : Nat) :
    Except JSErr Bool × List Ev :=
  match env.discordNickPatchResult attempt guildId with
  | .ok _ => (.ok true, [.discordNickPatch guildId userId nickname])
  | .error e => (.error e, [.discordNickPatch guildId userId nickname])

/-- `discord.updateGuildMemberNickname` (discord.js): PATCH the member
nickname inside `retryWithBackoff`; `.catch(() => false)` converts any
failure into `false`. -/
def updateGuildMemberNickname (env : Env) (guildId userId nickname : String) :
    Bool × List Ev :=
  let r := retryWithBackoff (nickPatchAttempt env guildId userId nickname) 3 0
  match r.result with
  | .ok (some b) => (b, r.events)
  | .ok none => (false, r.events)
  | .error _ => (false, r.events)

/-- `scoutid.getOidcTokens` (scoutid.js): throw on a falsy `code` or
`codeVerifier` before any network call, then POST the code and PKCE
verifier to the ScoutID token endpoint (no retry wrapper). -/
def getOidcTokens (env : Env) (code codeVerifier : String) :
    Except JSErr OidcTokenResp × List Ev :=
  if code = "" then (.error {}, [])
  else if codeVerifier = "" then (.error {}, [])
  else
    match env.scoutidCodeGrant code codeVerifier with
    | .ok d => (.ok d, [.scoutidTokenExchange code codeVerifier])
    | .error e => (.error e, [.scoutidTokenExchange code codeVerifier])

/-- `scoutid.getUserData` (scoutid.js): GET `userinfo` with
`tokens.access_token` — no expiry check and no refresh — and assemble
`{name, scoutid, email}`.  A `null` tokens argument throws a TypeError
when `tokens.access_token` is read. -/
def scoutidGetUserData (env : Env) (tokens : Option JSTokens) :
    Except JSErr ScoutIDProfile × List Ev :=
  match tokens with
  | none => (.error {}, [])
  | some t =>
    match env.scoutidUserinfo t.access_token with
    | .ok d =>
        (.ok { name := d.given_name ++ " " ++ d.family_name
               scoutid := d.profile
               email := d.email }, [.scoutidUserFetch])
    | .error e => (.error e, [.scoutidUserFetch])

/-- The pure tail of `scoutnet.getUserData` (scoutnet.js): derive the
`is_participant` / `is_leader` / `is_ist` / `troop` / `patrol` object from
a participant record (or its absence). -/
def scoutnetDeriveUserData (participant_data : Option Participant) : JSObj :=
  match participant_data with
  | some p =>
      [("is_participant", .jbool (isNullish p.cancelled_date)),
       ("is_leader", .jbool (match p.questions with
          | some q => decide (jsGet q "82553" = .jstr "55897")
          | none => false)),
       ("is_ist", .jbool (match p.questions with
          | some q => decide (jsGet q "82555" = .jstr "55897")
          | none => false)),
       ("troop", match p.questions with
          | some q => jsOr (jsGet q "82552") (.jnum 0)
          | none => .jnull),
       ("patrol", match p.questions with
          | some q => jsOr (jsGet q "82554") (.jnum 0)
          | none => .jnull)]
  | none =>
      [("is_participant", .jbool false),
       ("is_leader", .jbool false),
       ("is_ist", .jbool false),
       ("troop", .jnull),
       ("patrol", .jnull)]

/-- `scoutnet.getUserData` (scoutnet.js): look the member up among the
event participants (cache plus API, combined into one oracle call that may
throw) and derive the user-data object. -/
def scoutnetGetUserData (env : Env) (member_id : String) :
    Except JSErr JSObj × List Ev :=
  match env.scoutnetParticipant member_id with
  | .ok p => (.ok (scoutnetDeriveUserData p), [.scoutnetFetch])
  | .error e => (.error e, [.scoutnetFetch])

/-- The standard base64 alphabet (RFC 4648 §4), as produced by Node's
`digest('base64')`. -/
def b64Alphabet : List Char :=
  "ABCDEFGHIJKLMNOPQRSTUVWXYZabcdefghijklmnopqrstuvwxyz0123456789+/".toList

/-- The base64url alphabet (RFC 4648 §5). -/
def b64urlAlphabet : List Char :=
  "ABCDEFGHIJKLMNOPQRSTUVWXYZabcdefghijklmnopqrstuvwxyz0123456789-_".toList

/-- Character for a 6-bit group in base64. -/
def b64Char (i : Nat) : Char := b64Alphabet.getD i '?'

/-- Character for a 6-bit group in base64url. -/
def b64urlChar (i : Nat) : Char := b64urlAlphabet.getD i '?'

/-- Split a byte sequence into big-endian 6-bit groups, zero-padding the
final partial group (the common core of base64 and base64url). -/
def sextets : List Nat → List Nat
  | [] => []
  | [a] => [a / 4, a % 4 * 16]
  | [a, b] => [a / 4, a % 4 * 16 + b / 16, b % 16 * 4]
  | a :: b :: c :: rest =>
      a / 4 :: (a % 4 * 16 + b / 16) :: (b % 16 * 4 + c / 64) :: c % 64 :: sextets rest

/-- Number of `'='` padding characters base64 appends. -/
def b64PadLen : List Nat → Nat
  | [] => 0
  | [_] => 2
  | [_, _] => 1
  | _ :: _ :: _ :: rest => b64PadLen rest

/-- Base64 encoding of a byte sequence (with `'='` padding), the output of
Node's `Hash.digest('base64')`. -/
def base64Chars (bs : List Nat) : List Char :=
  (sextets bs).map b64Char ++ List.replicate (b64PadLen bs) '='

/-- Base64url encoding without padding — the reference encoding the spec
names for the PKCE challenge. -/
def base64urlNoPadChars (bs : List Nat) : List Char :=
  (sextets bs).map b64urlChar

/-- The two character replacements `getOidcAuthorizationUrl` performs:
`.replace(/\+/g, '-').replace(/\//g, '_')`. -/
def replaceForUrl (c : Char) : Char :=
  if c = '+' then '-' else if c = '/' then '_' else c

/-- `.replace(/=+$/, '')`: remove every trailing `'='`. -/
def stripTrailingEq (l : List Char) : List Char :=
  (l.reverse.dropWhile (fun c => c = '=')).reverse

/-- The `codeChallenge` computation of `scoutid.getOidcAuthorizationUrl`,
applied to the SHA-256 digest bytes of the verifier:
`digest('base64')` then the two replacements then the padding strip. -/
def codeChallengeChars (digestBytes : List Nat) : List Char :=
  stripTrailingEq ((base64Chars digestBytes).map replaceForUrl)

/-- The value returned by `scoutid.getOidcAuthorizationUrl`: the fresh
`state`, `nonce` and `codeVerifier`, and the authorization URL split into
its base and its query parameters in insertion order. -/
structure AuthUrlParts where
  state : String
  nonce : String
  codeVerifier : String
  urlBase : String
  urlParams : List (String × String)
deriving DecidableEq, Repr

/-- `scoutid.getOidcAuthorizationUrl` (scoutid.js).  The random draws
(`crypto.randomUUID()` twice, `crypto.randomBytes(64).toString('base64url')`)
and the SHA-256 digest are supplied by the oracle: `state`, `nonce`,
`codeVerifier`, and `digest` (mapping the verifier string to its hash
bytes).  Everything else follows the source line by line. -/
def getOidcAuthorizationUrl (clientId redirectUri : String) (scopes : Option String)
    (state nonce codeVerifier : String) (digest : String → List Nat) : AuthUrlParts :=
  let codeChallenge := String.mk (codeChallengeChars (digest codeVerifier))
  { state := state
    nonce := nonce
    codeVerifier := codeVerifier
    urlBase := "https://scoutid.se/simplesaml/module.php/oidc/authorize.php"
    urlParams :=
      [("client_id", clientId),
       ("redirect_uri", redirectUri),
       ("response_type", "code"),
       ("scope", match scopes with
          | some s => if s = "" then "openid profile email" else s
          | none => "openid profile email"),
       ("state", state),
       ("nonce", nonce),
       ("code_challenge", codeChallenge),
       ("code_challenge_method", "S256")] }

/-- The `try` block of `updateMetadata` (server.js): fetch the ScoutID
profile, fetch the ScoutNet data for its `scoutid`, and build the metadata
object `{accepted, leader, ist, troop, patrol}` from the `is_accepted`,
`is_leader`, `is_ist`, `troop` and `patrol` properties. -/
def deriveMetadata (env : Env) (scoutIDTokens : Option JSTokens) :
    Except JSErr JSObj × List Ev :=
  match scoutidGetUserData env scoutIDTokens with
  | (.error e, evs) => (.error e, evs)
  | (.ok prof, evs) =>
    match scoutnetGetUserData env prof.scoutid with
    | (.error e, evs2) => (.error e, evs ++ evs2)
    | (.ok snd, evs2) =>
      (.ok [("accepted", jsGet snd "is_accepted"),
            ("leader", jsGet snd "is_leader"),
            ("ist", jsGet snd "is_ist"),
            ("troop", jsGet snd "troop"),
            ("patrol", jsGet snd "patrol")], evs ++ evs2)

/-- `updateMetadata` (server.js): read the Discord tokens and the Identity
Link; a falsy link (missing key or empty string) skips silently; otherwise
derive the metadata — any exception inside the `try` resets it to `{}` —
and push it to Discord under `scoutIDTokens.discord_user_id` (a TypeError
if the ScoutID token set is itself missing).  Returns the outcome the
caller observes plus the event list. -/
def updateMetadata (env : Env) (store : Store) (userId : String) :
    Except JSErr Unit × List Ev :=
  let discordTokens := store.discordTokens userId
  match store.discordLink userId with
  | none => (.ok (), [])
  | some scoutId =>
    if scoutId = "" then (.ok (), [])
    else
      let scoutIDTokens := store.scoutidTokens scoutId
      let md := match deriveMetadata env scoutIDTokens with
        | (.ok m, evs) => (m, evs)
        | (.error _, evs) => (([] : JSObj), evs)
      match scoutIDTokens with
      | none => (.error {}, md.2)
      | some st =>
        let pr := pushMetadata env st.discord_user_id discordTokens md.1
        match pr.result with
        | .ok _ => (.ok (), md.2 ++ pr.events)
        | .error e => (.error e, md.2 ++ pr.events)

/-- One attempt of the `fetch` inside `discord.getUserGuilds`. -/
def guildsAttempt (env : Env) (accessToken : String) (attempt : Nat) :
    Except JSErr (List String) × List Ev :=
  match env.discordGuilds attempt accessToken with
  | .ok gs => (.ok gs, [.discordGuildsFetch])
  | .error e => (.error e, [.discordGuildsFetch])

/-- The per-guild loop of `updateNickname` (server.js): check the bot's
permission in each guild and attempt the nickname patch where allowed;
every per-guild failure is caught and counted, never rethrown.  Returns
the success count and the events. -/
def updateNicknameGuilds (env : Env) (guilds : List String) (userId nickname : String) :
    Nat × List Ev :=
  match guilds with
  | [] => (0, [])
  | g :: rest =>
    let here : Nat × List Ev :=
      match env.discordCanManageNicknames g with
      | .ok true =>
          let r := updateGuildMemberNickname env g userId nickname
          (if r.1 then 1 else 0, .discordPermsFetch g :: r.2)
      | .ok false => (0, [.discordPermsFetch g])
      | .error _ => (0, [.discordPermsFetch g])
    let later := updateNicknameGuilds env rest userId nickname
    (here.1 + later.1, here.2 ++ later.2)

/-- `updateNickname` (server.js): best-effort nickname sync.  The whole
body sits in a `try` whose `catch` only logs, so the operation always
returns normally and performs no store writes; only its provider-call
events are observable. -/
def updateNickname (env : Env) (store : Store) (userId : String) : List Ev :=
  match store.discordLink userId with
  | none => []
  | some scoutId =>
    if scoutId = "" then []
    else
      let scoutIDTokens := store.scoutidTokens scoutId
      match scoutidGetUserData env scoutIDTokens with
      | (.error _, evs) => evs
      | (.ok prof, evs) =>
        if prof.name = "" then evs
        else
          let nickname := if prof.name.length > 32 then prof.name.take 32 else prof.name
          match store.discordTokens userId with
          | none => evs
          | some dt =>
            let r := retryWithBackoff (guildsAttempt env dt.access_token) 3 0
            match r.result with
            | .ok (some guilds) =>
                evs ++ r.events ++ (updateNicknameGuilds env guilds userId nickname).2
            | .ok none => evs ++ r.events
            | .error _ => evs ++ r.events

/-- An HTTP response produced by a handler: `sendStatus`, a redirect to
the ScoutID authorization URL (kept structured), or `res.send` of a body. -/
inductive HResp where
  | sendStatus (code : Nat)
  | redirect (urlBase : String) (urlParams : List (String × String))
  | send (body : String)
deriving DecidableEq, Repr

/-- An inbound callback request: the `state` and `code` query parameters
(`""` for an absent/falsy parameter) and the signed `clientState` cookie
(`none` when missing or failing signature verification). -/
structure Request where
  queryState : String
  queryCode : String
  clientState : Option String
deriving DecidableEq, Repr

/-- The `/discord-oauth-callback` handler (server.js): reject 403 unless
the signed cookie equals the returned `state`; exchange the code; fetch
the profile; persist the Discord token set; build the ScoutID
authorization request; persist the LinkState under the fresh state token;
redirect.  Any exception is caught into a 500. -/
def discordOauthCallback (env : Env) (store : Store) (req : Request) :
    HResp × List Ev :=
  let _ := store
  if req.clientState ≠ some req.queryState then (.sendStatus 403, [])
  else
    let tr := getOAuthTokens env req.queryCode
    match tr.result with
    | .error _ => (.sendStatus 500, tr.events)
    | .ok none => (.sendStatus 500, tr.events)
    | .ok (some tokens) =>
      let ur := discordGetUserData env tokens.access_token
      match ur.result with
      | .error _ => (.sendStatus 500, tr.events ++ ur.events)
      | .ok none => (.sendStatus 500, tr.events ++ ur.events)
      | .ok (some userId) =>
        let w1 : Ev := .write (.putDiscordTokens userId
          { access_token := tokens.access_token
            refresh_token := tokens.refresh_token
            expires_at := env.now + tokens.expires_in * 1000 })
        let auth := getOidcAuthorizationUrl env.scoutidClientId env.scoutidRedirectUri
          env.scoutidScopes env.newState env.newNonce env.newVerifier env.digest
        let w2 : Ev := .write (.putStateData auth.state
          { discordUserId := userId, codeVerifier := auth.codeVerifier })
        (.redirect auth.urlBase auth.urlParams, tr.events ++ ur.events ++ [w1, w2])

/-- The `/scoutid-oauth-callback` handler (server.js).  Note the source
order: `getStateData(state)` is destructured **before** the cookie check,
so a missing LinkState throws a TypeError (caught into a 500) without the
cookie ever being read.  On success: exchange the code with the stored
PKCE verifier, fetch the profile, store the ScoutID token set, write the
Identity Link, run `updateMetadata` (an exception there is caught into a
500) and the best-effort `updateNickname`, then send the success body. -/
def scoutidOauthCallback (env : Env) (store : Store) (req : Request) :
    HResp × List Ev :=
  match store.stateData req.queryState with
  | none => (.sendStatus 500, [])
  | some ls =>
    if req.clientState ≠ some req.queryState then (.sendStatus 403, [])
    else
      match getOidcTokens env req.queryCode ls.codeVerifier with
      | (.error _, evs) => (.sendStatus 500, evs)
      | (.ok tokens, evs) =>
        match scoutidGetUserData env (some
            { access_token := tokens.access_token
              refresh_token := tokens.refresh_token
              expires_in := tokens.expires_in }) with
        | (.error _, evs2) => (.sendStatus 500, evs ++ evs2)
        | (.ok prof, evs2) =>
          let userId := prof.scoutid
          let newToks : JSTokens :=
            { discord_user_id := ls.discordUserId
              access_token := tokens.access_token
              refresh_token := tokens.refresh_token
              expires_at := env.now + tokens.expires_in * 1000
              code_verifier := ls.codeVerifier }
          let ws : List Ev := [.write (.putScoutidTokens userId newToks),
                               .write (.putLink ls.discordUserId userId)]
          let store2 := store.applyWrites [.putScoutidTokens userId newToks,
                                           .putLink ls.discordUserId userId]
          let mr := updateMetadata env store2 ls.discordUserId
          match mr.1 with
          | .error _ => (.sendStatus 500, evs ++ evs2 ++ ws ++ mr.2)
          | .ok _ =>
            let store3 := store2.applyWrites (evWrites mr.2)
            let nevs := updateNickname env store3 ls.discordUserId
            (.send "You did it!  Now go back to Discord.",
             evs ++ evs2 ++ ws ++ mr.2 ++ nevs)

/-- A concrete oracle under which the whole linking flow succeeds: every
provider call answers positively except the guild enumeration (whose
failure `updateNickname` swallows). -/
def envRun : Env :=
  { now := 1000
    scoutidClientId := "cid"
    scoutidRedirectUri := "https://app/scoutid-oauth-callback"
    scoutidScopes := none
    newState := "ns"
    newNonce := "nn"
    newVerifier := "nv"
    digest := fun _ => []
    discordCodeGrant := fun _ _ => .ok ⟨"dat", "drt", 3600⟩
    discordMe := fun _ _ => .ok "42"
    discordRefresh := fun _ _ => .ok ⟨"dat2", "drt2", 3600⟩
    discordPush := fun _ => .ok ()
    scoutidCodeGrant := fun _ _ => .ok ⟨"sat", "srt", 3600⟩
    scoutidUserinfo := fun _ => .ok ⟨"Ada", "L", "777", "a@b"⟩
    scoutnetParticipant := fun _ => .ok none
    discordGuilds := fun _ _ => .error {}
    discordCanManageNicknames := fun _ => .ok false
    discordNickPatchResult := fun _ _ => .ok () }

/-- A store holding a LinkState under token `"s"` for Discord user `"42"`
and a non-expired Discord token set for `"42"`. -/
def storeRun : Store :=
  { Store.empty with
    stateData := fun k => if k = "s" then some ⟨"42", "ver"⟩ else none
    discordTokens := fun k =>
      if k = "42" then some { access_token := "dat", refresh_token := "drt", expires_at := 2000 }
      else none }

/-- The callback request matching `storeRun`: token `"s"` in both the
`state` query parameter and the signed cookie. -/
def reqRun : Request := ⟨"s", "code1", some "s"⟩

/-- An attempt function that is rate-limited twice and then succeeds. -/
def fn429 : Nat → Except JSErr Nat × List Ev :=
  fun i => if i < 2 then (.error ⟨some 429⟩, []) else (.ok 7, [])

/-- An attempt function that fails immediately with a non-429 status. -/
def fn500 : Nat → Except JSErr Nat × List Ev :=
  fun _ => (.error ⟨some 500⟩, [])

/-- `envRun` with a failing ScoutID userinfo endpoint: the metadata
derivation throws while the Discord push still succeeds. -/
def envFail : Env :=
  { envRun with scoutidUserinfo := fun _ => .error ⟨some 401⟩ }

/-- `envRun` with a Discord token endpoint that rejects refresh grants
with a non-429 status. -/
def envRefreshFail : Env :=
  { envRun with discordRefresh := fun _ _ => .error ⟨some 400⟩ }

/-- A store where Discord user `"42"` is linked to ScoutID subject `"777"`
with stored tokens for both. -/
def storeLinked : Store :=
  { Store.empty with
    discordTokens := fun k =>
      if k = "42" then some { access_token := "dat", refresh_token := "drt", expires_at := 2000 }
      else none
    scoutidTokens := fun k =>
      if k = "777" then
        some { access_token := "sat"
               refresh_token := "srt"
               expires_at := 500
               discord_user_id := "42"
               code_verifier := "ver" }
      else none
    discordLink := fun k => if k = "42" then some "777" else none }

/-! ### Helper lemmas -/

/-- Every event emitted by the retry loop comes from one of the attempts,
so any property holding of every attempt's events holds of the combined
event list (fuel-indexed form). -/
theorem retryAux_events_forall {α : Type} (fn : Nat → Except JSErr α × List Ev)
    (Q : Ev → Prop) (h : ∀ i e, e ∈ (fn i).2 → Q e) :
    ∀ (m fuel a : Nat), ∀ e ∈ (retryAux fn m fuel a).events, Q e := by
  intro m fuel
  induction fuel with
  | zero =>
    intro a e he
    simp [retryAux] at he
  | succ fuel ih =>
    intro a e he
    rw [retryAux] at he
    rcases hfn : fn a with ⟨r, evs⟩
    rw [hfn] at he
    match r with
    | .ok v =>
      simp at he
      exact h a e (by rw [hfn]; exact he)
    | .error er =>
      by_cases hc : er.status = some 429 ∧ a < m - 1
      · simp [hc] at he
        rcases he with he | he
        · exact h a e (by rw [hfn]; exact he)
        · exact ih (a + 1) e he
      · simp [hc] at he
        exact h a e (by rw [hfn]; exact he)

/-- Every event of a `retryWithBackoff` run satisfies any property that
holds of every attempt's events. -/
theorem retry_events_forall {α : Type} (fn : Nat → Except JSErr α × List Ev)
    (Q : Ev → Prop) (h : ∀ i e, e ∈ (fn i).2 → Q e) (m a : Nat) :
    ∀ e ∈ (retryWithBackoff fn m a).events, Q e := by
  unfold retryWithBackoff
  exact retryAux_events_forall fn Q h m (m - a) a

/-- `scoutid.getUserData` only ever performs the userinfo fetch. -/
theorem scoutidGetUserData_events (env : Env) (tk : Option JSTokens) :
    ∀ e ∈ (scoutidGetUserData env tk).2, e = Ev.scoutidUserFetch := by
  intro e he
  rcases tk with _ | t <;> unfold scoutidGetUserData at he
  · simp at he
  · split at he
    · simp at he
    · split at he <;> simp_all

/-- `scoutid.getOidcTokens` only ever performs the token exchange. -/
theorem getOidcTokens_events (env : Env) (c v : String) :
    ∀ e ∈ (getOidcTokens env c v).2, e = Ev.scoutidTokenExchange c v := by
  intro e he
  unfold getOidcTokens at he
  split at he
  · simp at he
  · split at he
    · simp at he
    · split at he <;> simp_all

/-- `scoutnet.getUserData` only ever performs the participant fetch. -/
theorem scoutnetGetUserData_events (env : Env) (m : String) :
    ∀ e ∈ (scoutnetGetUserData env m).2, e = Ev.scoutnetFetch := by
  intro e he
  unfold scoutnetGetUserData at he
  split at he <;> simp_all

/-- The metadata-derivation `try` block only fetches from ScoutID and
ScoutNet. -/
theorem deriveMetadata_events (env : Env) (tk : Option JSTokens) :
    ∀ e ∈ (deriveMetadata env tk).2,
      e = Ev.scoutidUserFetch ∨ e = Ev.scoutnetFetch := by
  intro e he
  unfold deriveMetadata at he
  split at he
  case h_1 e1 evs1 h1 =>
    exact Or.inl (scoutidGetUserData_events env tk e (by rw [h1]; exact he))
  case h_2 prof evs1 h1 =>
    split at he
    case h_1 e2 evs2 h2 =>
      rcases List.mem_append.mp he with hin | hin
      · exact Or.inl (scoutidGetUserData_events env tk e (by rw [h1]; exact hin))
      · exact Or.inr (scoutnetGetUserData_events env prof.scoutid e (by rw [h2]; exact hin))
    case h_2 snd evs2 h2 =>
      rcases List.mem_append.mp he with hin | hin
      · exact Or.inl (scoutidGetUserData_events env tk e (by rw [h1]; exact hin))
      · exact Or.inr (scoutnetGetUserData_events env prof.scoutid e (by rw [h2]; exact hin))

/-- Each refresh attempt emits exactly the refresh-call event. -/
theorem refreshAttempt_events (env : Env) (rt : String) :
    ∀ i e, e ∈ (refreshAttempt env rt i).2 → e = Ev.discordRefreshCall := by
  intro i e he
  unfold refreshAttempt at he
  split at he <;> simp_all

/-- `discord.getAccessToken` emits only refresh calls and Discord-token
store writes. -/
theorem getAccessToken_events (env : Env) (u : String) (tk : Option JSTokens) :
    ∀ e ∈ (getAccessToken env u tk).2,
      e = Ev.discordRefreshCall ∨ ∃ u' t', e = Ev.write (.putDiscordTokens u' t') := by
  intro e he
  unfold getAccessToken at he
  rcases tk with _ | t
  · simp at he
  · by_cases hx : env.now > t.expires_at
    · simp only [hx, if_pos] at he
      have hretry := retry_events_forall (refreshAttempt env t.refresh_token)
        (fun e => e = Ev.discordRefreshCall) (refreshAttempt_events env t.refresh_token) 3 0
      split at he
      next newTokens heq =>
        rcases List.mem_append.mp he with hin | hin
        · exact Or.inl (hretry e hin)
        · simp at hin
          exact Or.inr ⟨u, newTokens, by rw [hin]⟩
      next heq => exact Or.inl (hretry e he)
      next e' heq => exact Or.inl (hretry e he)
    · simp [hx] at he

/-- `evWrites` distributes over append. -/
theorem evWrites_append (a b : List Ev) : evWrites (a ++ b) = evWrites a ++ evWrites b := by
  unfold evWrites
  exact List.filterMap_append a b _

/-- An event list without write events contributes no store writes. -/
theorem evWrites_eq_nil (evs : List Ev) (h : ∀ e ∈ evs, Ev.isWrite e = false) :
    evWrites evs = [] := by
  induction evs with
  | nil => rfl
  | cons e t ih =>
    have he := h e (by simp)
    have ht := ih (fun e' he' => h e' (by simp [he']))
    cases e <;> simp_all [evWrites, Ev.isWrite]

/-- Every push attempt emits only refresh calls, Discord-token writes, and
metadata pushes carrying exactly the metadata argument. -/
theorem pushAttempt_events (env : Env) (u : String) (tk : Option JSTokens) (md : JSObj) :
    ∀ i e, e ∈ (pushAttempt env u tk md i).2 →
      e = Ev.discordRefreshCall ∨ (∃ u' t', e = Ev.write (.putDiscordTokens u' t')) ∨
        e = Ev.discordMetadataPush u md := by
  intro i e he
  unfold pushAttempt at he
  split at he
  next evs heq =>
    split at he
    next => rcases List.mem_append.mp he with hin | hin
            · rcases getAccessToken_events env u tk e (by rw [heq]; exact hin) with h | h
              · exact Or.inl h
              · exact Or.inr (Or.inl h)
            · simp at hin; exact Or.inr (Or.inr hin)
    next e' heq2 =>
            rcases List.mem_append.mp he with hin | hin
            · rcases getAccessToken_events env u tk e (by rw [heq]; exact hin) with h | h
              · exact Or.inl h
              · exact Or.inr (Or.inl h)
            · simp at hin; exact Or.inr (Or.inr hin)
  next e' evs heq =>
    rcases getAccessToken_events env u tk e (by rw [heq]; exact he) with h | h
    · exact Or.inl h
    · exact Or.inr (Or.inl h)

/-- `discord.pushMetadata` emits only refresh calls, Discord-token writes,
and metadata pushes carrying exactly its metadata argument. -/
theorem pushMetadata_events (env : Env) (u : String) (tk : Option JSTokens) (md : JSObj) :
    ∀ e ∈ (pushMetadata env u tk md).events,
      e = Ev.discordRefreshCall ∨ (∃ u' t', e = Ev.write (.putDiscordTokens u' t')) ∨
        e = Ev.discordMetadataPush u md := by
  unfold pushMetadata
  exact retry_events_forall _ _ (pushAttempt_events env u tk md) 3 0

/-- `updateMetadata` emits only provider fetches, refresh calls,
Discord-token writes, and metadata pushes. -/
theorem updateMetadata_events (env : Env) (store : Store) (u : String) :
    ∀ e ∈ (updateMetadata env store u).2,
      e = Ev.scoutidUserFetch ∨ e = Ev.scoutnetFetch ∨ e = Ev.discordRefreshCall ∨
        (∃ u' t', e = Ev.write (.putDiscordTokens u' t')) ∨
        ∃ uid m, e = Ev.discordMetadataPush uid m := by
  intro e he
  simp only [updateMetadata] at he
  split at he
  · simp at he
  next scoutId hlink =>
    split at he
    · simp at he
    · split at he
      next hnone =>
        -- scoutIDTokens = none: only the derivation events are emitted
        rw [hnone] at he
        rcases hd : deriveMetadata env none with ⟨dres, devs⟩
        rw [hd] at he
        have hm : e ∈ devs := by rcases dres with e1 | m1 <;> simpa using he
        rcases deriveMetadata_events env none e (by rw [hd]; exact hm) with h | h
        · exact Or.inl h
        · exact Or.inr (Or.inl h)
      next st hst =>
        rw [hst] at he
        rcases hd : deriveMetadata env (some st) with ⟨dres, devs⟩
        have hder : ∀ e' ∈ devs, e' = Ev.scoutidUserFetch ∨ e' = Ev.scoutnetFetch := by
          intro e' he'
          exact deriveMetadata_events env (some st) e' (by rw [hd]; exact he')
        have hpm := pushMetadata_events env st.discord_user_id (store.discordTokens u)
        rw [hd] at he
        have hmem : e ∈ devs ∨
            ∃ m1, e ∈ (pushMetadata env st.discord_user_id (store.discordTokens u) m1).events := by
          rcases dres with e1 | m1
          · split at he <;> simp at he <;> tauto
          · split at he <;> simp at he <;> tauto
        rcases hmem with hm | ⟨m1, hm⟩
        · rcases hder e hm with h | h
          · exact Or.inl h
          · exact Or.inr (Or.inl h)
        · rcases hpm m1 e hm with h | h | h
          · exact Or.inr (Or.inr (Or.inl h))
          · exact Or.inr (Or.inr (Or.inr (Or.inl h)))
          · exact Or.inr (Or.inr (Or.inr (Or.inr ⟨_, _, h⟩)))

/-- Nickname-patch attempts emit only patch events. -/
theorem nickPatchAttempt_events (env : Env) (g u n : String) :
    ∀ i e, e ∈ (nickPatchAttempt env g u n i).2 → e = Ev.discordNickPatch g u n := by
  intro i e he
  unfold nickPatchAttempt at he
  split at he <;> simp_all

/-- Guild-list attempts emit only the guilds fetch event. -/
theorem guildsAttempt_events (env : Env) (a : String) :
    ∀ i e, e ∈ (guildsAttempt env a i).2 → e = Ev.discordGuildsFetch := by
  intro i e he
  unfold guildsAttempt at he
  split at he <;> simp_all

/-- `updateGuildMemberNickname` emits only patch events. -/
theorem updateGuildMemberNickname_events (env : Env) (g u n : String) :
    ∀ e ∈ (updateGuildMemberNickname env g u n).2, e = Ev.discordNickPatch g u n := by
  intro e he
  have hretry := retry_events_forall (nickPatchAttempt env g u n)
    (fun e => e = Ev.discordNickPatch g u n) (nickPatchAttempt_events env g u n) 3 0
  simp only [updateGuildMemberNickname] at he
  split at he <;> exact hretry e he

/-- The per-guild nickname loop never writes to the store. -/
theorem updateNicknameGuilds_no_write (env : Env) (gs : List String) (u n : String) :
    ∀ e ∈ (updateNicknameGuilds env gs u n).2, Ev.isWrite e = false := by
  induction gs with
  | nil => intro e he; simp [updateNicknameGuilds] at he
  | cons g rest ih =>
    intro e he
    unfold updateNicknameGuilds at he
    simp only [] at he
    have hsplit : e ∈ (match env.discordCanManageNicknames g with
        | .ok true =>
            ((if (updateGuildMemberNickname env g u n).1 then 1 else 0 : Nat),
              Ev.discordPermsFetch g :: (updateGuildMemberNickname env g u n).2)
        | .ok false => ((0 : Nat), [Ev.discordPermsFetch g])
        | .error _ => ((0 : Nat), [Ev.discordPermsFetch g])).2 ∨
        e ∈ (updateNicknameGuilds env rest u n).2 := by
      simpa using (List.mem_append.mp he)
    rcases hsplit with hm | hm
    · split at hm
      · simp at hm
        rcases hm with rfl | hm
        · rfl
        · rw [updateGuildMemberNickname_events env g u n e hm]; rfl
      · simp at hm; rw [hm]; rfl
      · simp at hm; rw [hm]; rfl
    · exact ih e hm

/-- `updateNickname` performs no store writes. -/
theorem updateNickname_no_write (env : Env) (store : Store) (u : String) :
    ∀ e ∈ updateNickname env store u, Ev.isWrite e = false := by
  intro e he
  simp only [updateNickname] at he
  rcases hlink : store.discordLink u with _ | scoutId <;> rw [hlink] at he <;>
    dsimp only [] at he
  · simp at he
  · by_cases h0 : scoutId = ""
    · rw [if_pos h0] at he; simp at he
    · rw [if_neg h0] at he
      rcases hsc : scoutidGetUserData env (store.scoutidTokens scoutId) with ⟨sres, sevs⟩
      rw [hsc] at he
      have hsevs : ∀ e' ∈ sevs, Ev.isWrite e' = false := by
        intro e' he'
        rw [scoutidGetUserData_events env (store.scoutidTokens scoutId) e'
          (by rw [hsc]; exact he')]
        rfl
      rcases sres with e1 | prof
      · exact hsevs e (by simpa using he)
      · dsimp only [] at he
        by_cases hname : prof.name = ""
        · rw [if_pos hname] at he; exact hsevs e he
        · rw [if_neg hname] at he
          rcases hdt : store.discordTokens u with _ | dt <;> rw [hdt] at he <;>
            dsimp only [] at he
          · exact hsevs e he
          · have hg := retry_events_forall (guildsAttempt env dt.access_token)
              (fun e => e = Ev.discordGuildsFetch) (guildsAttempt_events env dt.access_token) 3 0
            split at he
            next guilds hres =>
              rcases List.mem_append.mp he with hm | hm
              · rcases List.mem_append.mp hm with hm | hm
                · exact hsevs e hm
                · rw [hg e hm]; rfl
              · exact updateNicknameGuilds_no_write env guilds _ _ e hm
            next hres =>
              rcases List.mem_append.mp he with hm | hm
              · exact hsevs e hm
              · rw [hg e hm]; rfl
            next e2 hres =>
              rcases List.mem_append.mp he with hm | hm
              · exact hsevs e hm
              · rw [hg e hm]; rfl

/-- A write op occurs in `evWrites` exactly when its write event occurs. -/
theorem mem_evWrites (evs : List Ev) (w : WriteOp) :
    w ∈ evWrites evs ↔ Ev.write w ∈ evs := by
  unfold evWrites
  rw [List.mem_filterMap]
  constructor
  · rintro ⟨e, he, hf⟩
    cases e <;> simp_all
  · intro h
    exact ⟨.write w, h, rfl⟩

/-- All store writes of `updateMetadata` are Discord-token writes. -/
theorem updateMetadata_writes (env : Env) (store : Store) (u : String) :
    ∀ w ∈ evWrites (updateMetadata env store u).2,
      ∃ u' t', w = WriteOp.putDiscordTokens u' t' := by
  intro w hw
  have hev := updateMetadata_events env store u (Ev.write w) ((mem_evWrites _ w).mp hw)
  rcases hev with h | h | h | ⟨u', t', h⟩ | ⟨uid, m, h⟩
  · exact absurd h (by simp)
  · exact absurd h (by simp)
  · exact absurd h (by simp)
  · exact ⟨u', t', by injection h⟩
  · exact absurd h (by simp)

/-- `updateNickname` contributes no store writes. -/
theorem updateNickname_writes_nil (env : Env) (store : Store) (u : String) :
    evWrites (updateNickname env store u) = [] :=
  evWrites_eq_nil _ (updateNickname_no_write env store u)

/-- Shape of the `/scoutid-oauth-callback` write sequence: either nothing
is written, or the ScoutID token set is written first, the Identity Link
second, and any later write is a Discord-token write (from a refresh
inside the metadata push). -/
theorem scoutidCallback_writes_shape (env : Env) (store : Store) (req : Request) :
    evWrites (scoutidOauthCallback env store req).2 = [] ∨
    ∃ sid ts did rest,
      evWrites (scoutidOauthCallback env store req).2 =
        WriteOp.putScoutidTokens sid ts :: WriteOp.putLink did sid :: rest ∧
      ∀ w ∈ rest, ∃ u t, w = WriteOp.putDiscordTokens u t := by
  unfold scoutidOauthCallback
  rcases hls : store.stateData req.queryState with _ | ls <;> dsimp only []
  · exact Or.inl rfl
  · by_cases hcookie : req.clientState ≠ some req.queryState
    · rw [if_pos hcookie]
      exact Or.inl rfl
    · rw [if_neg hcookie]
      have htevs : evWrites (getOidcTokens env req.queryCode ls.codeVerifier).2 = [] := by
        apply evWrites_eq_nil
        intro e he
        rw [getOidcTokens_events env req.queryCode ls.codeVerifier e he]
        rfl
      rcases hot : getOidcTokens env req.queryCode ls.codeVerifier with ⟨tres, tevs⟩
      rw [hot] at htevs
      dsimp only [] at htevs
      rcases tres with e1 | tokens <;> dsimp only []
      · exact Or.inl htevs
      · have hsevs : evWrites (scoutidGetUserData env (some
            { access_token := tokens.access_token
              refresh_token := tokens.refresh_token
              expires_in := tokens.expires_in })).2 = [] := by
          apply evWrites_eq_nil
          intro e he
          rw [scoutidGetUserData_events env _ e he]
          rfl
        rcases hs : scoutidGetUserData env (some
            { access_token := tokens.access_token
              refresh_token := tokens.refresh_token
              expires_in := tokens.expires_in }) with ⟨sres, sevs⟩
        rw [hs] at hsevs
        dsimp only [] at hsevs
        rcases sres with e2 | prof <;> dsimp only []
        · exact Or.inl (by rw [evWrites_append, htevs, hsevs]; rfl)
        · have hmw : ∀ w ∈ evWrites (updateMetadata env
              (store.applyWrites [WriteOp.putScoutidTokens prof.scoutid
                { discord_user_id := ls.discordUserId
                  access_token := tokens.access_token
                  refresh_token := tokens.refresh_token
                  expires_at := env.now + tokens.expires_in * 1000
                  code_verifier := ls.codeVerifier },
                WriteOp.putLink ls.discordUserId prof.scoutid])
              ls.discordUserId).2, ∃ u t, w = WriteOp.putDiscordTokens u t :=
            updateMetadata_writes env _ ls.discordUserId
          rcases hmr : updateMetadata env
              (store.applyWrites [WriteOp.putScoutidTokens prof.scoutid
                { discord_user_id := ls.discordUserId
                  access_token := tokens.access_token
                  refresh_token := tokens.refresh_token
                  expires_at := env.now + tokens.expires_in * 1000
                  code_verifier := ls.codeVerifier },
                WriteOp.putLink ls.discordUserId prof.scoutid])
              ls.discordUserId with ⟨mres, mevs⟩
          rw [hmr] at hmw
          dsimp only [] at hmw
          rcases mres with e3 | mok <;> dsimp only []
          · refine Or.inr ⟨prof.scoutid,
              { access_token := tokens.access_token
                refresh_token := tokens.refresh_token
                expires_at := env.now + tokens.expires_in * 1000
                discord_user_id := ls.discordUserId
                code_verifier := ls.codeVerifier },
              ls.discordUserId, evWrites mevs, ?_, hmw⟩
            simp only [evWrites_append, htevs, hsevs]
            simp [evWrites]
          · refine Or.inr ⟨prof.scoutid,
              { access_token := tokens.access_token
                refresh_token := tokens.refresh_token
                expires_at := env.now + tokens.expires_in * 1000
                discord_user_id := ls.discordUserId
                code_verifier := ls.codeVerifier },
              ls.discordUserId, evWrites mevs, ?_, hmw⟩
            simp only [evWrites_append, htevs, hsevs, updateNickname_writes_nil]
            simp [evWrites]

/-- All 6-bit groups produced from byte input are below 64. -/
theorem sextets_lt : ∀ (bs : List Nat), (∀ b ∈ bs, b < 256) → ∀ x ∈ sextets bs, x < 64
  | [] => by intro _ x hx; simp [sextets] at hx
  | [a] => by
      intro h x hx
      have ha := h a (by simp)
      simp [sextets] at hx
      rcases hx with rfl | rfl <;> omega
  | [a, b] => by
      intro h x hx
      have ha := h a (by simp)
      have hb := h b (by simp)
      simp [sextets] at hx
      rcases hx with rfl | rfl | rfl <;> omega
  | [a, b, c] => by
      intro h x hx
      have ha := h a (by simp)
      have hb := h b (by simp)
      have hc := h c (by simp)
      simp [sextets] at hx
      rcases hx with rfl | rfl | rfl | rfl <;> omega
  | a :: b :: c :: d :: rest => by
      intro h x hx
      have ha := h a (by simp)
      have hb := h b (by simp)
      have hc := h c (by simp)
      simp only [sextets, List.mem_cons] at hx
      rcases hx with rfl | rfl | rfl | rfl | hx
      · omega
      · omega
      · omega
      · omega
      · exact sextets_lt (d :: rest) (fun y hy => h y (by simp at hy ⊢; tauto)) x hx

/-- Applying the URL replacements to a base64 character yields the
base64url character of the same 6-bit value. -/
theorem replaceForUrl_b64Char (i : Nat) (h : i < 64) :
    replaceForUrl (b64Char i) = b64urlChar i := by
  have hfin : ∀ j : Fin 64, replaceForUrl (b64Char j.val) = b64urlChar j.val := by decide
  exact hfin ⟨i, h⟩

/-- No base64url character is the padding character. -/
theorem b64urlChar_ne_eq (i : Nat) (h : i < 64) : b64urlChar i ≠ '=' := by
  have hfin : ∀ j : Fin 64, b64urlChar j.val ≠ '=' := by decide
  exact hfin ⟨i, h⟩

/-- Stripping trailing `'='` from a pad-free prefix followed by padding
returns the prefix. -/
theorem stripTrailingEq_append_replicate (l : List Char) (n : Nat)
    (h : ∀ c ∈ l, c ≠ '=') :
    stripTrailingEq (l ++ List.replicate n '=') = l := by
  unfold stripTrailingEq
  rw [List.reverse_append, List.reverse_replicate]
  have h1 : ∀ (m : Nat) (t : List Char),
      List.dropWhile (fun c => c = '=') (List.replicate m '=' ++ t) =
        List.dropWhile (fun c => c = '=') t := by
    intro m
    induction m with
    | zero => intro t; simp
    | succ m ih => intro t; simp [List.replicate_succ, List.dropWhile, ih]
  rw [h1]
  have h2 : List.dropWhile (fun c => c = '=') l.reverse = l.reverse := by
    cases hrev : l.reverse with
    | nil => simp
    | cons c t =>
      have hc : c ∈ l := by
        rw [← List.mem_reverse, hrev]
        simp
      simp [List.dropWhile, h c hc]
  rw [h2, List.reverse_reverse]

/-- The source's challenge computation (base64 then character replacements
then padding strip) equals base64url-without-padding, on any byte input. -/
theorem codeChallenge_eq_base64url (bs : List Nat) (h : ∀ b ∈ bs, b < 256) :
    codeChallengeChars bs = base64urlNoPadChars bs := by
  unfold codeChallengeChars base64Chars base64urlNoPadChars
  rw [List.map_append, List.map_replicate]
  have hrepl : replaceForUrl '=' = '=' := by decide
  rw [hrepl, List.map_map]
  have hmap : (sextets bs).map (replaceForUrl ∘ b64Char) = (sextets bs).map b64urlChar := by
    apply List.map_congr_left
    intro x hx
    exact replaceForUrl_b64Char x (sextets_lt bs h x hx)
  rw [hmap]
  apply stripTrailingEq_append_replicate
  intro c hc
  rw [List.mem_map] at hc
  obtain ⟨x, hx, rfl⟩ := hc
  exact b64urlChar_ne_eq x (sextets_lt bs h x hx)

/-! ### Claim theorems -/

/-- Claim C6: for every Discord user id with no Identity Link in the
store, `updateMetadata` is a no-op — it returns without error and issues
zero provider calls and zero store writes (its event list is empty). -/
theorem c6_no_link_noop (env : Env) (store : Store) (userId : String)
    (h : store.discordLink userId = none) :
    updateMetadata env store userId = (.ok (), []) := by
  unfold updateMetadata
  rw [h]

/-- Witness for C6 at a concrete store with no link. -/
theorem c6_no_link_noop_witness :
    storeRun.discordLink "42" = none ∧
    updateMetadata envRun storeRun "42" = (.ok (), []) :=
  ⟨rfl, c6_no_link_noop envRun storeRun "42" rfl⟩

/-- Claim C10: in `/scoutid-oauth-callback` the stored LinkState is looked
up by the `state` query parameter before the signed cookie is compared;
when no LinkState is stored under that token the handler throws while
destructuring the `null` lookup and responds 500 with no provider call and
no store write, regardless of the cookie — it never reaches the 403
branch. -/
theorem c10_missing_state_500 (env : Env) (store : Store) (req : Request)
    (h : store.stateData req.queryState = none) :
    scoutidOauthCallback env store req = (.sendStatus 500, []) := by
  unfold scoutidOauthCallback
  rw [h]

/-- Witness for C10: an unknown state token with no cookie at all still
produces the 500, not a 403. -/
theorem c10_missing_state_500_witness :
    Store.empty.stateData "ghost" = none ∧
    scoutidOauthCallback envRun Store.empty ⟨"ghost", "c", none⟩ = (.sendStatus 500, []) :=
  ⟨rfl, c10_missing_state_500 envRun Store.empty ⟨"ghost", "c", none⟩ rfl⟩

/-- Claim C5: the `code_challenge` parameter of the generated ScoutID
authorization URL equals the base64url encoding, with `'='` padding
stripped, of the SHA-256 digest (abstracted as the `digest` oracle, whose
output is a byte sequence) of the returned `codeVerifier`; the URL also
carries `code_challenge_method=S256` and `response_type=code`. -/
theorem c5_pkce_challenge (clientId redirectUri : String) (scopes : Option String)
    (st nonce ver : String) (digest : String → List Nat)
    (h : ∀ b ∈ digest ver, b < 256) :
    List.lookup "code_challenge"
        (getOidcAuthorizationUrl clientId redirectUri scopes st nonce ver digest).urlParams =
      some (String.mk (base64urlNoPadChars (digest ver))) ∧
    List.lookup "code_challenge_method"
        (getOidcAuthorizationUrl clientId redirectUri scopes st nonce ver digest).urlParams =
      some "S256" ∧
    List.lookup "response_type"
        (getOidcAuthorizationUrl clientId redirectUri scopes st nonce ver digest).urlParams =
      some "code" := by
  refine ⟨?_, rfl, rfl⟩
  have h1 : List.lookup "code_challenge"
      (getOidcAuthorizationUrl clientId redirectUri scopes st nonce ver digest).urlParams =
      some (String.mk (codeChallengeChars (digest ver))) := rfl
  rw [h1, codeChallenge_eq_base64url (digest ver) h]

/-- Witness for C5 at a concrete digest output. -/
theorem c5_pkce_challenge_witness :
    (∀ b ∈ [(0 : Nat), 255, 16], b < 256) ∧
    (List.lookup "code_challenge"
        (getOidcAuthorizationUrl "cid" "ruri" none "s" "n" "v" (fun _ => [0, 255, 16])).urlParams =
      some (String.mk (base64urlNoPadChars [0, 255, 16])) ∧
    List.lookup "code_challenge_method"
        (getOidcAuthorizationUrl "cid" "ruri" none "s" "n" "v" (fun _ => [0, 255, 16])).urlParams =
      some "S256" ∧
    List.lookup "response_type"
        (getOidcAuthorizationUrl "cid" "ruri" none "s" "n" "v" (fun _ => [0, 255, 16])).urlParams =
      some "code") :=
  ⟨by decide,
   c5_pkce_challenge "cid" "ruri" none "s" "n" "v" (fun _ => [0, 255, 16]) (by decide)⟩

/-- Claim C7: under the retry policy, an attempt sequence failing twice
with HTTP 429 and then succeeding yields success after exactly 3 attempts
with backoff delays of 1000 ms and 2000 ms; a first failure with any
status other than 429 propagates immediately after a single attempt with
no delay. -/
theorem c7_retry_backoff :
    (∀ (α : Type) (fn : Nat → Except JSErr α × List Ev) (e0 e1 : JSErr) (v : α),
      (fn 0).1 = .error e0 → e0.status = some 429 →
      (fn 1).1 = .error e1 → e1.status = some 429 →
      (fn 2).1 = .ok v →
      retryWithBackoff fn 3 0 =
        ⟨.ok (some v), (fn 0).2 ++ ((fn 1).2 ++ (fn 2).2), [1000, 2000]⟩) ∧
    (∀ (α : Type) (fn : Nat → Except JSErr α × List Ev) (e : JSErr),
      (fn 0).1 = .error e → e.status ≠ some 429 →
      retryWithBackoff fn 3 0 = ⟨.error e, (fn 0).2, []⟩) := by
  constructor
  · intro α fn e0 e1 v h0 h0s h1 h1s h2
    rcases hf0 : fn 0 with ⟨r0, evs0⟩
    rcases hf1 : fn 1 with ⟨r1, evs1⟩
    rcases hf2 : fn 2 with ⟨r2, evs2⟩
    rw [hf0] at h0
    rw [hf1] at h1
    rw [hf2] at h2
    dsimp only [] at h0 h1 h2
    subst h0
    subst h1
    subst h2
    simp [retryWithBackoff, retryAux, hf0, hf1, hf2, h0s, h1s]
  · intro α fn e h0 hs
    rcases hf0 : fn 0 with ⟨r0, evs0⟩
    rw [hf0] at h0
    dsimp only [] at h0
    subst h0
    simp [retryWithBackoff, retryAux, hf0, hs]

/-- Witness for C7 at the two concrete attempt functions. -/
theorem c7_retry_backoff_witness :
    retryWithBackoff fn429 3 0 = ⟨.ok (some 7), [], [1000, 2000]⟩ ∧
    retryWithBackoff fn500 3 0 = ⟨.error ⟨some 500⟩, [], []⟩ := by
  constructor
  · have h := c7_retry_backoff.1 Nat fn429 ⟨some 429⟩ ⟨some 429⟩ 7 rfl rfl rfl rfl rfl
    simpa [fn429] using h
  · have h := c7_retry_backoff.2 Nat fn500 ⟨some 500⟩ rfl (by decide)
    simpa [fn500] using h

/-- `scoutnet.getUserData` never defines an `is_accepted` property. -/
theorem scoutnet_no_is_accepted (p : Option Participant) :
    jsGet (scoutnetDeriveUserData p) "is_accepted" = .jundefined := by
  cases p <;> rfl

/-- A successfully derived metadata object has `accepted = undefined`, and
the key is dropped by JSON serialization. -/
theorem deriveMetadata_ok_accepted (env : Env) (tk : Option JSTokens) (m : JSObj)
    (h : (deriveMetadata env tk).1 = .ok m) :
    jsGet m "accepted" = .jundefined ∧ "accepted" ∉ jsonKeys m := by
  unfold deriveMetadata at h
  split at h
  · simp at h
  next prof evs hs =>
    split at h
    · simp at h
    next snd evs2 hsn =>
      dsimp only [] at h
      injection h with h
      have hsnd : jsGet snd "is_accepted" = .jundefined := by
        unfold scoutnetGetUserData at hsn
        split at hsn
        next p hp =>
          have : scoutnetDeriveUserData p = snd := by
            injection hsn with h1 h2
            injection h1
          rw [← this]
          exact scoutnet_no_is_accepted p
        next e' hp => simp at hsn
      subst h
      constructor
      · simpa [jsGet, List.lookup] using hsnd
      · simp [jsonKeys, hsnd]

/-- Claim C9 (implicit): `updateMetadata` reads `scoutNetData.is_accepted`
but `scoutnet.getUserData` only ever defines `is_participant`, so the
`accepted` attribute of every pushed metadata object is `undefined`
(absent after JSON serialization) — the membership-status attribute is
never published, for any participant record. -/
theorem c9_accepted_never_defined :
    (∀ p, jsGet (scoutnetDeriveUserData p) "is_accepted" = .jundefined) ∧
    (∀ env store u uid m, Ev.discordMetadataPush uid m ∈ (updateMetadata env store u).2 →
      jsGet m "accepted" = .jundefined ∧ "accepted" ∉ jsonKeys m) := by
  constructor
  · exact scoutnet_no_is_accepted
  · intro env store u uid m hm
    simp only [updateMetadata] at hm
    split at hm
    · simp at hm
    next scoutId hlink =>
      split at hm
      · simp at hm
      · split at hm
        next hnone =>
          rw [hnone] at hm
          rcases hd : deriveMetadata env none with ⟨dres, devs⟩
          rw [hd] at hm
          have : Ev.discordMetadataPush uid m ∈ devs := by
            rcases dres with e1 | m1 <;> simpa using hm
          rcases deriveMetadata_events env none _ (by rw [hd]; exact this) with h | h <;>
            exact absurd h (by simp)
        next st hst =>
          rw [hst] at hm
          rcases hd : deriveMetadata env (some st) with ⟨dres, devs⟩
          have hdevs : Ev.discordMetadataPush uid m ∉ devs := by
            intro hin
            rcases deriveMetadata_events env (some st) _ (by rw [hd]; exact hin) with h | h <;>
              exact absurd h (by simp)
          rw [hd] at hm
          rcases dres with e1 | m1
          · -- catch branch: metadata pushed is the empty object
            have hpm : Ev.discordMetadataPush uid m ∈
                (pushMetadata env st.discord_user_id (store.discordTokens u) []).events := by
              split at hm <;> simp at hm <;> tauto
            rcases pushMetadata_events env st.discord_user_id (store.discordTokens u) []
              _ hpm with h | ⟨u', t', h⟩ | h
            · exact absurd h (by simp)
            · exact absurd h (by simp)
            · injection h with h1 h2
              subst h2
              exact ⟨rfl, by simp [jsonKeys]⟩
          · -- success branch: metadata pushed is the derived object
            have hpm : Ev.discordMetadataPush uid m ∈
                (pushMetadata env st.discord_user_id (store.discordTokens u) m1).events := by
              split at hm <;> simp at hm <;> tauto
            rcases pushMetadata_events env st.discord_user_id (store.discordTokens u) m1
              _ hpm with h | ⟨u', t', h⟩ | h
            · exact absurd h (by simp)
            · exact absurd h (by simp)
            · injection h with h1 h2
              subst h2
              exact deriveMetadata_ok_accepted env (some st) m (by rw [hd])

/-- Witness for C9: the concrete successful sync of `envRun` over
`storeLinked` pushes a metadata object whose `accepted` is undefined and
dropped by serialization. -/
theorem c9_accepted_never_defined_witness :
    jsGet (scoutnetDeriveUserData none) "is_accepted" = .jundefined ∧
    (jsGet [("accepted", JVal.jundefined), ("leader", .jbool false), ("ist", .jbool false),
        ("troop", .jnull), ("patrol", .jnull)] "accepted" = .jundefined ∧
      "accepted" ∉ jsonKeys [("accepted", JVal.jundefined), ("leader", .jbool false),
        ("ist", .jbool false), ("troop", .jnull), ("patrol", .jnull)]) :=
  ⟨c9_accepted_never_defined.1 none,
   c9_accepted_never_defined.2 envRun storeLinked "42" "42"
     [("accepted", JVal.jundefined), ("leader", .jbool false), ("ist", .jbool false),
      ("troop", .jnull), ("patrol", .jnull)]
     (by
       have hev : (updateMetadata envRun storeLinked "42").2 =
           [Ev.scoutidUserFetch, Ev.scoutnetFetch,
            Ev.discordMetadataPush "42"
              [("accepted", JVal.jundefined), ("leader", .jbool false), ("ist", .jbool false),
               ("troop", .jnull), ("patrol", .jnull)]] := rfl
       rw [hev]
       simp)⟩

/-- Claim C1 (amended): a `state`/cookie mismatch is answered with HTTP
403 and no token exchange or store write by `/discord-oauth-callback`
always, and by `/scoutid-oauth-callback` whenever a LinkState is stored
under the presented `state` token; when none is stored, the ScoutID
callback instead answers 500 (the null-lookup TypeError), still with no
exchange and no write. -/
theorem c1_state_mismatch_behavior :
    (∀ (env : Env) (store : Store) (req : Request),
      req.clientState ≠ some req.queryState →
      discordOauthCallback env store req = (.sendStatus 403, [])) ∧
    (∀ (env : Env) (store : Store) (req : Request) (ls : LinkState),
      store.stateData req.queryState = some ls →
      req.clientState ≠ some req.queryState →
      scoutidOauthCallback env store req = (.sendStatus 403, [])) ∧
    (∀ (env : Env) (store : Store) (req : Request),
      store.stateData req.queryState = none →
      scoutidOauthCallback env store req = (.sendStatus 500, [])) := by
  refine ⟨?_, ?_, ?_⟩
  · intro env store req h
    unfold discordOauthCallback
    rw [if_pos h]
  · intro env store req ls hls h
    unfold scoutidOauthCallback
    rw [hls]
    dsimp only []
    rw [if_pos h]
  · intro env store req h
    unfold scoutidOauthCallback
    rw [h]

/-- Witness for C1 at concrete mismatching tokens. -/
theorem c1_state_mismatch_behavior_witness :
    discordOauthCallback envRun Store.empty ⟨"tokA", "c", some "tokB"⟩ = (.sendStatus 403, []) ∧
    scoutidOauthCallback envRun storeRun ⟨"s", "c", some "tokB"⟩ = (.sendStatus 403, []) ∧
    scoutidOauthCallback envRun Store.empty ⟨"tokA", "c", some "tokB"⟩ = (.sendStatus 500, []) :=
  ⟨c1_state_mismatch_behavior.1 envRun Store.empty ⟨"tokA", "c", some "tokB"⟩ (by decide),
   c1_state_mismatch_behavior.2.1 envRun storeRun ⟨"s", "c", some "tokB"⟩ ⟨"42", "ver"⟩
     rfl (by decide),
   c1_state_mismatch_behavior.2.2 envRun Store.empty ⟨"tokA", "c", some "tokB"⟩ rfl⟩

/-- Counterexample to C1 as stated: with distinct tokens `"tokA"` (query)
and `"tokB"` (cookie) and no stored LinkState for `"tokA"`, the ScoutID
callback responds 500, not 403 — the rejection status is not independent
of the stored-LinkState validity. -/
theorem c1_mismatch_not_always_403 :
    "tokA" ≠ "tokB" ∧
    scoutidOauthCallback envRun Store.empty ⟨"tokA", "c", some "tokB"⟩ = (.sendStatus 500, []) ∧
    (HResp.sendStatus 500 : HResp) ≠ .sendStatus 403 := by
  decide

/-- Claim C3: for a user with an Identity Link, whenever the ScoutID-token
load / profile fetch or the ScoutNet fetch throws (the `try` block of
`updateMetadata` fails), every metadata object pushed to Discord during
that invocation is the empty object — never a partial object and never a
previous value. -/
theorem c3_failed_fetch_pushes_empty (env : Env) (store : Store) (u scoutId : String)
    (err : JSErr)
    (h1 : store.discordLink u = some scoutId) (h2 : scoutId ≠ "")
    (h3 : (deriveMetadata env (store.scoutidTokens scoutId)).1 = .error err) :
    ∀ uid m, Ev.discordMetadataPush uid m ∈ (updateMetadata env store u).2 → m = [] := by
  intro uid m hm
  simp only [updateMetadata] at hm
  rw [h1] at hm
  dsimp only [] at hm
  rw [if_neg h2] at hm
  split at hm
  next hnone =>
    rw [hnone] at hm h3
    rcases hd : deriveMetadata env none with ⟨dres, devs⟩
    rw [hd] at hm
    have hin : Ev.discordMetadataPush uid m ∈ devs := by
      rcases dres with e1 | m1 <;> simpa using hm
    rcases deriveMetadata_events env none _ (by rw [hd]; exact hin) with h | h <;>
      exact absurd h (by simp)
  next st hst =>
    rw [hst] at hm h3
    rcases hd : deriveMetadata env (some st) with ⟨dres, devs⟩
    rw [hd] at hm h3
    dsimp only [] at h3
    subst h3
    have hmem : Ev.discordMetadataPush uid m ∈ devs ∨
        Ev.discordMetadataPush uid m ∈
          (pushMetadata env st.discord_user_id (store.discordTokens u) []).events := by
      split at hm <;> simpa using hm
    rcases hmem with hmem | hmem
    · rcases deriveMetadata_events env (some st) _ (by rw [hd]; exact hmem) with h | h <;>
        exact absurd h (by simp)
    · rcases pushMetadata_events env st.discord_user_id (store.discordTokens u) []
        _ hmem with h | ⟨u', t', h⟩ | h
      · exact absurd h (by simp)
      · exact absurd h (by simp)
      · injection h with hh1 hh2

/-- Witness for C3: with a failing ScoutID userinfo endpoint and a linked
user, the only push performed carries `{}`. -/
theorem c3_failed_fetch_pushes_empty_witness :
    storeLinked.discordLink "42" = some "777" ∧
    (∀ uid m, Ev.discordMetadataPush uid m ∈ (updateMetadata envFail storeLinked "42").2 →
      m = []) :=
  ⟨rfl,
   c3_failed_fetch_pushes_empty envFail storeLinked "42" "777" ⟨some 401⟩
     rfl (by decide) rfl⟩

/-- Claim C4 (amended): the expiry-check/refresh policy holds for the
Discord calls routed through `getAccessToken` — a future `expires_at`
means zero refresh calls and use of the stored token; a past `expires_at`
means one refresh exchange whose result is persisted before proceeding;
a non-429 refresh failure propagates with no store write and no fallback —
but ScoutID calls never consult the expiry: `scoutid.getUserData` performs
no refresh under any circumstances. -/
theorem c4_refresh_policy :
    (∀ (env : Env) (u : String) (t : JSTokens),
      ¬ env.now > t.expires_at →
      getAccessToken env u (some t) = (.ok (some t.access_token), [])) ∧
    (∀ (env : Env) (u : String) (t : JSTokens) (resp : OidcTokenResp),
      env.now > t.expires_at →
      env.discordRefresh 0 t.refresh_token = .ok resp →
      getAccessToken env u (some t) =
        (.ok (some resp.access_token),
         [Ev.discordRefreshCall,
          Ev.write (.putDiscordTokens u
            { access_token := resp.access_token
              refresh_token := resp.refresh_token
              expires_in := resp.expires_in
              expires_at := env.now + resp.expires_in * 1000 })])) ∧
    (∀ (env : Env) (u : String) (t : JSTokens) (e : JSErr),
      env.now > t.expires_at →
      env.discordRefresh 0 t.refresh_token = .error e →
      e.status ≠ some 429 →
      getAccessToken env u (some t) = (.error e, [Ev.discordRefreshCall])) ∧
    (∀ (env : Env) (t : JSTokens),
      Ev.discordRefreshCall ∉ (scoutidGetUserData env (some t)).2) := by
  refine ⟨?_, ?_, ?_, ?_⟩
  · intro env u t hx
    unfold getAccessToken
    dsimp only []
    rw [if_neg hx]
  · intro env u t resp hx href
    unfold getAccessToken
    dsimp only []
    rw [if_pos hx]
    simp [retryWithBackoff, retryAux, refreshAttempt, href]
  · intro env u t e hx href hs
    unfold getAccessToken
    dsimp only []
    rw [if_pos hx]
    simp [retryWithBackoff, retryAux, refreshAttempt, href, hs]
  · intro env t hin
    have := scoutidGetUserData_events env (some t) _ hin
    simp at this

/-- Witness for C4 at concrete token sets: fresh token → no refresh;
expired token → one persisted refresh; rejected refresh → hard failure. -/
theorem c4_refresh_policy_witness :
    getAccessToken envRun "42"
        (some { access_token := "dat", refresh_token := "drt", expires_at := 2000 }) =
      (.ok (some "dat"), []) ∧
    getAccessToken envRun "42"
        (some { access_token := "dat", refresh_token := "drt" }) =
      (.ok (some "dat2"),
       [Ev.discordRefreshCall,
        Ev.write (.putDiscordTokens "42"
          { access_token := "dat2"
            refresh_token := "drt2"
            expires_in := 3600
            expires_at := envRun.now + 3600 * 1000 })]) ∧
    getAccessToken envRefreshFail "42"
        (some { access_token := "dat", refresh_token := "drt" }) =
      (.error ⟨some 400⟩, [Ev.discordRefreshCall]) ∧
    Ev.discordRefreshCall ∉ (scoutidGetUserData envRun (some { access_token := "sat" })).2 :=
  ⟨c4_refresh_policy.1 envRun "42"
     { access_token := "dat", refresh_token := "drt", expires_at := 2000 } (by decide),
   c4_refresh_policy.2.1 envRun "42"
     { access_token := "dat", refresh_token := "drt" } ⟨"dat2", "drt2", 3600⟩ (by decide) rfl,
   c4_refresh_policy.2.2.1 envRefreshFail "42"
     { access_token := "dat", refresh_token := "drt" } ⟨some 400⟩ (by decide) rfl (by decide),
   c4_refresh_policy.2.2.2 envRun { access_token := "sat" }⟩

/-- Counterexample to C4 as stated: an outbound ScoutID call with an
expired stored token performs zero refresh calls and proceeds with the
stale access token — not "exactly one refresh-token exchange". -/
theorem c4_scoutid_ignores_expiry :
    envRun.now > 500 ∧
    scoutidGetUserData envRun (some
      { access_token := "sat"
        refresh_token := "srt"
        expires_at := 500
        discord_user_id := "42"
        code_verifier := "ver" }) =
      (.ok ⟨"Ada L", "777", "a@b"⟩, [Ev.scoutidUserFetch]) ∧
    Ev.discordRefreshCall ∉ [Ev.scoutidUserFetch] :=
  ⟨by decide, rfl, by decide⟩

/-- Applying writes none of which touch the `state-` key family leaves
every LinkState entry unchanged. -/
theorem applyWrites_stateData (s : Store) (ws : List WriteOp)
    (h : ∀ w ∈ ws, ∀ st d, w ≠ WriteOp.putStateData st d) :
    ∀ k, (s.applyWrites ws).stateData k = s.stateData k := by
  induction ws generalizing s with
  | nil => intro k; rfl
  | cons w t ih =>
    intro k
    have hw := h w (by simp)
    have ht : ∀ w' ∈ t, ∀ st d, w' ≠ WriteOp.putStateData st d := by
      intro w' hw' st d
      exact h w' (by simp [hw']) st d
    have hstep : Store.applyWrites s (w :: t) = Store.applyWrites (s.applyWrite w) t := rfl
    rw [hstep, ih (s.applyWrite w) ht k]
    cases w with
    | putStateData st d => exact absurd rfl (hw st d)
    | putDiscordTokens u tk => rfl
    | putScoutidTokens u tk => rfl
    | putLink a b => rfl

/-- The ScoutID callback never deletes or overwrites any LinkState entry:
the consumed correlation token stays in the store. -/
theorem scoutidCallback_preserves_stateData (env : Env) (store : Store) (req : Request) :
    ∀ k, (store.applyWrites (evWrites (scoutidOauthCallback env store req).2)).stateData k =
      store.stateData k := by
  intro k
  apply applyWrites_stateData
  intro w hw st d
  rcases scoutidCallback_writes_shape env store req with hsh | ⟨sid, ts, did, rest, hsh, hrest⟩
  · rw [hsh] at hw
    simp at hw
  · rw [hsh] at hw
    simp at hw
    rcases hw with rfl | rfl | hw
    · simp
    · simp
    · rcases hrest w hw with ⟨u, tk, rfl⟩
      simp

/-- When the stored LinkState, cookie, code, exchange and userinfo all
line up, the ScoutID callback performs the token exchange and writes the
Identity Link. -/
theorem scoutidCallback_links (env : Env) (store : Store) (req : Request) (ls : LinkState)
    (tokens : OidcTokenResp) (d : UserinfoResp)
    (hls : store.stateData req.queryState = some ls)
    (hck : req.clientState = some req.queryState)
    (hcode : req.queryCode ≠ "") (hver : ls.codeVerifier ≠ "")
    (hex : env.scoutidCodeGrant req.queryCode ls.codeVerifier = .ok tokens)
    (hui : env.scoutidUserinfo tokens.access_token = .ok d) :
    Ev.scoutidTokenExchange req.queryCode ls.codeVerifier ∈
      (scoutidOauthCallback env store req).2 ∧
    Ev.write (.putLink ls.discordUserId d.profile) ∈
      (scoutidOauthCallback env store req).2 := by
  unfold scoutidOauthCallback
  rw [hls]
  dsimp only []
  rw [if_neg (by simp [hck])]
  have hot : getOidcTokens env req.queryCode ls.codeVerifier =
      (.ok tokens, [Ev.scoutidTokenExchange req.queryCode ls.codeVerifier]) := by
    unfold getOidcTokens
    rw [if_neg hcode, if_neg hver, hex]
  rw [hot]
  dsimp only []
  have hsg : scoutidGetUserData env (some
      { access_token := tokens.access_token
        refresh_token := tokens.refresh_token
        expires_in := tokens.expires_in }) =
      (.ok { name := d.given_name ++ " " ++ d.family_name
             scoutid := d.profile
             email := d.email }, [Ev.scoutidUserFetch]) := by
    unfold scoutidGetUserData
    dsimp only []
    rw [hui]
  rw [hsg]
  dsimp only []
  constructor <;> (split <;> simp)

/-- Claim C2 (amended): the correlation token is NOT single-use at the
store level — the handler never deletes the LinkState (it is only left to
its 600 s TTL), so after a successful link the same token remains
retrievable and a replay of the same request against the updated store
re-runs the token exchange and re-writes the Identity Link with the same
stored data. -/
theorem c2_state_not_single_use :
    (∀ (env : Env) (store : Store) (req : Request) (k : String),
      (store.applyWrites (evWrites (scoutidOauthCallback env store req).2)).stateData k =
        store.stateData k) ∧
    (∀ (env : Env) (store : Store) (req : Request) (ls : LinkState)
       (tokens : OidcTokenResp) (d : UserinfoResp),
      store.stateData req.queryState = some ls →
      req.clientState = some req.queryState →
      req.queryCode ≠ "" → ls.codeVerifier ≠ "" →
      env.scoutidCodeGrant req.queryCode ls.codeVerifier = .ok tokens →
      env.scoutidUserinfo tokens.access_token = .ok d →
      Ev.write (.putLink ls.discordUserId d.profile) ∈ (scoutidOauthCallback env store req).2 ∧
      Ev.scoutidTokenExchange req.queryCode ls.codeVerifier ∈
        (scoutidOauthCallback env
          (store.applyWrites (evWrites (scoutidOauthCallback env store req).2)) req).2 ∧
      Ev.write (.putLink ls.discordUserId d.profile) ∈
        (scoutidOauthCallback env
          (store.applyWrites (evWrites (scoutidOauthCallback env store req).2)) req).2) := by
  constructor
  · exact scoutidCallback_preserves_stateData
  · intro env store req ls tokens d hls hck hcode hver hex hui
    have hls2 : (store.applyWrites
        (evWrites (scoutidOauthCallback env store req).2)).stateData req.queryState =
        some ls := by
      rw [scoutidCallback_preserves_stateData env store req req.queryState]
      exact hls
    refine ⟨(scoutidCallback_links env store req ls tokens d
        hls hck hcode hver hex hui).2, ?_, ?_⟩
    · exact (scoutidCallback_links env _ req ls tokens d hls2 hck hcode hver hex hui).1
    · exact (scoutidCallback_links env _ req ls tokens d hls2 hck hcode hver hex hui).2

/-- Witness for C2 at the concrete successful run. -/
theorem c2_state_not_single_use_witness :
    (storeRun.applyWrites
        (evWrites (scoutidOauthCallback envRun storeRun reqRun).2)).stateData "s" =
      storeRun.stateData "s" ∧
    (Ev.write (.putLink "42" "777") ∈ (scoutidOauthCallback envRun storeRun reqRun).2 ∧
     Ev.scoutidTokenExchange "code1" "ver" ∈
       (scoutidOauthCallback envRun
         (storeRun.applyWrites (evWrites (scoutidOauthCallback envRun storeRun reqRun).2))
         reqRun).2 ∧
     Ev.write (.putLink "42" "777") ∈
       (scoutidOauthCallback envRun
         (storeRun.applyWrites (evWrites (scoutidOauthCallback envRun storeRun reqRun).2))
         reqRun).2) :=
  ⟨c2_state_not_single_use.1 envRun storeRun reqRun "s",
   c2_state_not_single_use.2 envRun storeRun reqRun ⟨"42", "ver"⟩ ⟨"sat", "srt", 3600⟩
     ⟨"Ada", "L", "777", "a@b"⟩ rfl rfl (by decide) (by decide) rfl rfl⟩

/-- Counterexample to C2 as stated: after the concrete successful link,
the same LinkState is still retrievable under token `"s"`, and the very
same request replayed against the resulting store re-runs the token
exchange and the Identity-Link write with the stale stored data. -/
theorem c2_replay_not_prevented :
    (scoutidOauthCallback envRun storeRun reqRun).1 =
      .send "You did it!  Now go back to Discord." ∧
    (storeRun.applyWrites
        (evWrites (scoutidOauthCallback envRun storeRun reqRun).2)).stateData "s" =
      some ⟨"42", "ver"⟩ ∧
    Ev.scoutidTokenExchange "code1" "ver" ∈
      (scoutidOauthCallback envRun
        (storeRun.applyWrites (evWrites (scoutidOauthCallback envRun storeRun reqRun).2))
        reqRun).2 ∧
    Ev.write (.putLink "42" "777") ∈
      (scoutidOauthCallback envRun
        (storeRun.applyWrites (evWrites (scoutidOauthCallback envRun storeRun reqRun).2))
        reqRun).2 := by
  decide

/-- Claim C8 (amended): the order is the reverse of the one claimed — in
the `/scoutid-oauth-callback` write sequence the ScoutIDTokenSet write
precedes the Identity-Link write: every link write is preceded by the
write of the token set it refers to.  (Consequently a reachable state can
hold a ScoutIDTokenSet without its link, but never a link without the
token set.) -/
theorem c8_link_write_order (env : Env) (store : Store) (req : Request)
    (i : Nat) (d s : String)
    (h : (evWrites (scoutidOauthCallback env store req).2).get? i =
      some (.putLink d s)) :
    ∃ j t, j < i ∧
      (evWrites (scoutidOauthCallback env store req).2).get? j =
        some (.putScoutidTokens s t) := by
  rcases scoutidCallback_writes_shape env store req with hsh | ⟨sid, ts, did, rest, hsh, hrest⟩
  · rw [hsh] at h
    simp at h
  · rw [hsh] at h ⊢
    match i with
    | 0 => simp at h
    | 1 =>
      simp at h
      refine ⟨0, ts, by norm_num, ?_⟩
      rw [← h.2]
      rfl
    | (n + 2) =>
      exfalso
      have hmem : WriteOp.putLink d s ∈ rest := by
        have : rest.get? n = some (.putLink d s) := by simpa using h
        exact List.get?_mem this
      rcases hrest _ hmem with ⟨u, t, hw⟩
      simp at hw

/-- Witness for C8: in the concrete successful run, the link write sits at
index 1 and is preceded by the token-set write at index 0. -/
theorem c8_link_write_order_witness :
    ∃ j t, j < 1 ∧
      (evWrites (scoutidOauthCallback envRun storeRun reqRun).2).get? j =
        some (.putScoutidTokens "777" t) :=
  c8_link_write_order envRun storeRun reqRun 1 "42" "777" (by decide)

/-- Counterexample to C8 as stated: stopping the concrete run's write
sequence after its first write yields a reachable state holding the
ScoutIDTokenSet for `"777"` while the Identity Link for `"42"` is absent —
the token-set write is not preceded or accompanied by the link write. -/
theorem c8_tokens_before_link :
    (Store.empty.applyWrites
        ((evWrites (scoutidOauthCallback envRun storeRun reqRun).2).take 1)).scoutidTokens
        "777" =
      some { access_token := "sat"
             refresh_token := "srt"
             expires_at := 3601000
             discord_user_id := "42"
             code_verifier := "ver" } ∧
    (Store.empty.applyWrites
        ((evWrites (scoutidOauthCallback envRun storeRun reqRun).2).take 1)).discordLink
        "42" =
      none := by
  decide

end LinkedRole
